import Mathlib

/-!
# geacon_pro: host fingerprinting probe (`sysinfo`) and RSA helper (`crypt`)

A shallow embedding of `sysinfo/sysinfo_windows.go` and `crypt/rsa.go`.

Conventions of the embedding.

* A Go `string` / `[]byte` is the list of its bytes (`List Nat`); `str` gives
  the bytes of an ASCII literal.
* A Go `error` is `Option GoError`, with `none` for `nil`.
* A call into the operating system or into a library outside this repository
  is an explicit argument: either the outcome of the call, or (for calls that
  take a process id or a handle) a function from the arguments to the outcome.
* The set of open kernel handles is explicit state (`Finset Nat`), threaded
  through the two queries that open a handle.
* A run-time panic (index out of range, failed type assertion) is the `none`
  of an `Option` result.
-/

namespace Geacon

/-! ## Go values -/

/-- A Go `error` value that is not `nil`: an OS error number, or the text of
an `errors.New`. -/
inductive GoError where
  | errno (code : Nat)
  | text (msg : String)
  deriving DecidableEq, Repr

/-- Bytes of an ASCII string literal. -/
def str (s : String) : List Nat := s.toList.map Char.toNat

/-- Conversion to `byte` / `uint8`. -/
def toByte (v : Nat) : Nat := v % 2 ^ 8

/-- Conversion to `uint32`, from any Go integer (two's complement). -/
def toUint32 (v : Int) : Nat := (v % 2 ^ 32).toNat

/-- The verb `%d` of `fmt.Sprintf` on an unsigned value: its decimal digits. -/
def fmtD (n : Nat) : List Nat := (Nat.toDigits 10 n).map Char.toNat

/-! ## `strings.Split` with a one-byte separator

`GetUsername` calls `strings.Split(s, "\\")`; the separator is the constant
one-byte string, so `genSplit` is taken on its `sep != ""`, `len(sep) == 1`
path, with `sepSave = 0` and `n = -1`. -/

/-- The byte `\` (0x5C), the separator `GetUsername` splits on. -/
def backslash : Nat := 92

/-- Go `strings.Index(s, sep)` for a one-byte `sep`: the index of the first
occurrence, `none` for Go's `-1`. -/
def Index : List Nat → Nat → Option Nat
  | [], _ => none
  | b :: rest, c => if b = c then some 0 else (Index rest c).map (· + 1)

/-- Go `strings.Count(s, sep)` for a one-byte `sep`
(`bytealg.CountString`). -/
def Count : List Nat → Nat → Nat
  | [], _ => 0
  | b :: rest, c => (if b = c then 1 else 0) + Count rest c

/-- The loop of `genSplit`: `k` is `n - i`, the number of iterations the
guard `i < n` still allows; the result is `a[i:i+1+...]`, the pieces written
from here on. -/
def genSplitLoop (c : Nat) : Nat → List Nat → List (List Nat)
  | 0, s => [s]
  | k + 1, s =>
    match Index s c with
    | none => [s]
    | some m => s.take m :: genSplitLoop c k (s.drop (m + 1))

/-- Go `strings.Split(s, sep)` for a one-byte `sep`, that is
`genSplit(s, sep, 0, -1)`. -/
def Split (s : List Nat) (c : Nat) : List (List Nat) :=
  let n := Count s c + 1
  let n := if n > s.length + 1 then s.length + 1 else n
  genSplitLoop c (n - 1) s

/-! ## `GetUsername` -/

/-- Function `GetUsername`. The argument is the outcome of
`syscall.GetUserNameEx(NameSamCompatible, ...)`: an error, or the identity
string `syscall.UTF16ToString(username)` reads from the buffer it filled. The
result is `none` when the index expression `arr[len(arr)-1]` panics. -/
def GetUsername (query : Except GoError (List Nat)) :
    Option (List Nat × Option GoError) :=
  match query with
  | .error err => some ([], some err)
  | .ok s =>
    let arr := Split s backslash
    match arr.get? (arr.length - 1) with
    | none => none
    | some last => some (last, none)

/-! ## Kernel handles -/

/-- Windows `ERROR_INVALID_HANDLE`. -/
def errInvalidHandle : GoError := .errno 6

/-- Windows `CloseHandle(h)` on the set of open handles: an open handle is released;
anything else (the zero handle included) is refused and nothing changes. -/
def CloseHandle (h : Nat) (handles : Finset Nat) : Option GoError × Finset Nat :=
  if h ∈ handles then (none, handles.erase h) else (some errInvalidHandle, handles)

/-- Go `syscall.OpenCurrentProcessToken()`: on success the token handle the OS
hands out becomes open; on failure the token returned is `0`. -/
def OpenCurrentProcessToken (outcome : Except GoError Nat) (handles : Finset Nat) :
    (Nat × Option GoError) × Finset Nat :=
  match outcome with
  | .ok h => ((h, none), insert h handles)
  | .error err => ((0, some err), handles)

/-- Go `windows.OpenProcess(access, inherit, pid)`: on success the process handle
the OS hands out becomes open; on failure the handle returned is `0`. -/
def OpenProcess (outcome : Except GoError Nat) (handles : Finset Nat) :
    (Nat × Option GoError) × Finset Nat :=
  match outcome with
  | .ok h => ((h, none), insert h handles)
  | .error err => ((0, some err), handles)

/-! ## `IsHighPriv` -/

/-- What `syscall.GetTokenInformation(token, TokenElevation, &isElevated, 4,
&outLen)` leaves behind: the two `uint32` out-parameters and the error. -/
structure TokenInformation where
  isElevated : Nat
  outLen : Nat
  err : Option GoError
  deriving DecidableEq, Repr

/-- Go `unsafe.Sizeof(isElevated)` for `var isElevated uint32`. -/
def sizeofIsElevated : Nat := 4

/-- Function `IsHighPriv`. `openToken` is the outcome of the OS call behind
`OpenCurrentProcessToken`, `tokenInfo` the outcome of `GetTokenInformation`
for a token handle. The deferred `token.Close()` runs on every return; the
second component is the set of open handles afterwards. -/
def IsHighPriv (openToken : Except GoError Nat) (tokenInfo : Nat → TokenInformation)
    (handles : Finset Nat) : Bool × Finset Nat :=
  let ((token, err), handles1) := OpenCurrentProcessToken openToken handles
  let deferred := (CloseHandle token handles1).2
  if err ≠ none then
    (false, deferred)
  else
    let info := tokenInfo token
    if info.err ≠ none then
      (false, deferred)
    else
      (info.outLen == toUint32 sizeofIsElevated && info.isElevated != 0, deferred)

/-! ## Architecture queries -/

def ProcessorArchitectureAMD64 : Nat := 9
def ProcessorArchitectureARM : Nat := 5
def ProcessorArchitectureARM64 : Nat := 12
def ProcessorArchitectureIA64 : Nat := 6
def ProcessorArchitectureIntel : Nat := 0
def ProcessorArchitectureUnknown : Nat := 0xFFFF

/-- Function `IsOSX64`. `find` is the result of `fnGetNativeSystemInfo.Find()`, `arch`
the `ProcessorArchitecture` field the call writes into `systemInfo`. -/
def IsOSX64 (find : Option GoError) (arch : Nat) : Bool × Option GoError :=
  if find ≠ none then
    (false, some (.text "not found GetNativeSystemInfo"))
  else if arch = ProcessorArchitectureAMD64 ∨ arch ≠ ProcessorArchitectureIA64 then
    (true, none)
  else
    (false, none)

/-- Function `IsProcessX64`, with `runtime.GOARCH` as argument. -/
def IsProcessX64 (goarch : String) : Bool :=
  if goarch = "amd64" ∨ goarch = "arm64" ∨ goarch = "arm64be" then true else false

/-- Function `IsPidX64`. `openProcess access inherit pid` is the outcome of the OS call
behind `windows.OpenProcess`; `isWow64Process h` is what
`windows.IsWow64Process(h, &is64)` stores through the pointer, with its error.
The second component is the set of open handles when the function returns. -/
def IsPidX64 (goarch : String) (openProcess : Nat → Bool → Nat → Except GoError Nat)
    (isWow64Process : Nat → Bool × Option GoError) (pid : Nat) (handles : Finset Nat) :
    (Bool × Option GoError) × Finset Nat :=
  let ((hProcess, err), handles1) := OpenProcess (openProcess 0x1000 false pid) handles
  if err ≠ none then
    ((IsProcessX64 goarch, none), handles1)
  else
    let is64 := (isWow64Process hProcess).1
    ((is64, none), handles1)

/-- The flag `IsWow64Process` stores for a process, by the contract of the
call: set exactly for a 32-bit process on a 64-bit OS. -/
def wow64Flag (osIs64 procIs64 : Bool) : Bool := osIs64 && !procIs64

/-! ## Session, version, code page -/

/-- Function `GetProcessSessionId`. `processIdToSessionId p` is what
`windows.ProcessIdToSessionId(p, &sessionId)` stores in `sessionId`, with its
error; `pid` is the `int32` argument. -/
def GetProcessSessionId (processIdToSessionId : Nat → Nat × Option GoError) (pid : Int) : Nat :=
  let (sessionId, err) := processIdToSessionId (toUint32 pid)
  if err ≠ none then 0 else sessionId

/-- Function `GetOSVersion`. The argument is the pair `syscall.GetVersion()` returns. -/
def GetOSVersion (getVersion : Nat × Option GoError) : List Nat × Option GoError :=
  let (version, err) := getVersion
  if err ≠ none then
    ([], err)
  else
    (fmtD (toByte version) ++ str "." ++ fmtD (toByte (version >>> 8)) ++ str "."
      ++ fmtD (version >>> 16) ++ str "\n", none)

/-- Go `binary.LittleEndian.PutUint16(b, v)`; `none` is the panic on a slice
shorter than two bytes. -/
def PutUint16 (b : List Nat) (v : Nat) : Option (List Nat) :=
  match b with
  | _ :: _ :: rest => some (toByte v :: toByte (v >>> 8) :: rest)
  | _ => none

/-- Go `make([]byte, n)`. -/
def makeBytes (n : Nat) : List Nat := List.replicate n 0

/-- Function `GetCodePageANSI`. `find` is the result of `fnGetACP.Find()`, `acp` the
first result of `fnGetACP.Call()`, `ansiCodePage` the package variable
`ANSICodePage` before the call. The result is `none` on a panic, else the
returned pair (a `nil` slice is `none`) and `ANSICodePage` afterwards. -/
def GetCodePageANSI (find : Option GoError) (acp : Nat) (ansiCodePage : Nat) :
    Option ((Option (List Nat) × Option GoError) × Nat) :=
  if find ≠ none then
    some ((none, some (.text "not found GetACP")), ansiCodePage)
  else
    let ansiCodePage1 := toUint32 acp
    match PutUint16 (makeBytes 2) 65001 with
    | none => none
    | some acpbytes => some ((some acpbytes, none), ansiCodePage1)

/-- Function `GetCodePageOEM`. `find` is the result of `fnGetOEMCP.Find()`, `oemcp` the
(discarded) first result of `fnGetOEMCP.Call()`. -/
def GetCodePageOEM (find : Option GoError) (_oemcp : Nat) :
    Option (Option (List Nat) × Option GoError) :=
  if find ≠ none then
    some (none, some (.text "not found GetOEMCP"))
  else
    match PutUint16 (makeBytes 2) 65001 with
    | none => none
    | some acpbytes => some (some acpbytes, none)

/-! ## `crypt/rsa.go` -/

/-- The functions of `encoding/pem`, `crypto/x509` and `crypto/rsa` that
`rsa.go` calls. `pemDecode data` is `block.Bytes` of the first PEM block
(`none` when `pem.Decode` returns a `nil` block). The two parsers return the
key behind the interface value: `some k` when it is an RSA key, `none` when it
is a key of another algorithm (on which the type assertion panics). The
`List Nat` first argument of the two RSA operations is what they read from
`rand.Reader`. -/
structure CryptoLib (PublicKey PrivateKey : Type) where
  pemDecode : List Nat → Option (List Nat)
  ParsePKIXPublicKey : List Nat → Except GoError (Option PublicKey)
  ParsePKCS8PrivateKey : List Nat → Except GoError (Option PrivateKey)
  EncryptPKCS1v15 : List Nat → PublicKey → List Nat → Except GoError (List Nat)
  DecryptPKCS1v15 : List Nat → PrivateKey → List Nat → Except GoError (List Nat)

/-- Go `bytes.Trim(s, cutset)` for a one-byte ASCII cutset:
`trimLeftByte(trimRightByte(s, c), c)`. -/
def Trim (s : List Nat) (c : Nat) : List Nat :=
  ((s.reverse.dropWhile (· = c)).reverse).dropWhile (· = c)

/-- Function `RsaEncrypt`. `rsaPublicKey` is `config.RsaPublicKey`, `random` what is
read from `rand.Reader`. `none` is the panic of the type assertion;
`.error e` is the return `(nil, e)`, `.ok c` the return `(c, nil)`. -/
def RsaEncrypt {PublicKey PrivateKey : Type} (lib : CryptoLib PublicKey PrivateKey)
    (rsaPublicKey : List Nat) (random : List Nat) (origData : List Nat) :
    Option (Except GoError (List Nat)) :=
  match lib.pemDecode rsaPublicKey with
  | none => some (.error (.text "public key error"))
  | some blockBytes0 =>
    let blockBytes := Trim blockBytes0 0
    match lib.ParsePKIXPublicKey blockBytes with
    | .error err => some (.error err)
    | .ok none => none
    | .ok (some pub) => some (lib.EncryptPKCS1v15 random pub origData)

/-- Function `RsaDecrypt`. Arguments and result as for `RsaEncrypt`; the key block it
decodes is `config.RsaPublicKey`, as in the source. -/
def RsaDecrypt {PublicKey PrivateKey : Type} (lib : CryptoLib PublicKey PrivateKey)
    (rsaPublicKey : List Nat) (random : List Nat) (origData : List Nat) :
    Option (Except GoError (List Nat)) :=
  match lib.pemDecode rsaPublicKey with
  | none => some (.error (.text "private key error"))
  | some blockBytes =>
    match lib.ParsePKCS8PrivateKey blockBytes with
    | .error err => some (.error err)
    | .ok none => none
    | .ok (some priv) => some (lib.DecryptPKCS1v15 random priv origData)

/-- A small instance of `CryptoLib` on which the statements about `rsa.go` are
run: a key block is three bytes, the DER tag of a SEQUENCE (0x30), the tag of
its first element (0x30, a nested SEQUENCE, for a public key; 0x02, an
INTEGER, for a private key) and a key byte `k`; encryption adds `k` to each
byte and decryption subtracts it. -/
def demoLib : CryptoLib Nat Nat where
  pemDecode := fun data => if data = [] then none else some data
  ParsePKIXPublicKey := fun der =>
    match der with
    | [0x30, 0x30, k] => .ok (some k)
    | _ => .error (.text "x509: failed to parse public key")
  ParsePKCS8PrivateKey := fun der =>
    match der with
    | 0x30 :: 0x02 :: k :: _ => .ok (some k)
    | _ => .error (.text "x509: failed to parse private key")
  EncryptPKCS1v15 := fun _ k msg => .ok (msg.map (· + k))
  DecryptPKCS1v15 := fun _ k ciphertext => .ok (ciphertext.map (· - k))

/-! ## Lemmas on `Index`, `Count` and the `genSplit` loop -/

theorem Index_eq_none {s : List Nat} {c : Nat} (h : Index s c = none) : c ∉ s := by
  induction s with
  | nil => simp
  | cons b rest ih =>
    unfold Index at h
    by_cases hb : b = c
    · simp [hb] at h
    · simp only [hb, if_false, Option.map_eq_none'] at h
      simp only [List.mem_cons, not_or]
      exact ⟨fun hc => hb hc.symm, ih h⟩

theorem Index_eq_some {s : List Nat} {c m : Nat} (h : Index s c = some m) :
    c ∉ s.take m ∧ s = s.take m ++ c :: s.drop (m + 1) := by
  induction s generalizing m with
  | nil => simp [Index] at h
  | cons b rest ih =>
    unfold Index at h
    by_cases hb : b = c
    · simp only [hb, if_true, Option.some.injEq] at h
      subst h
      simp [hb]
    · simp only [hb, if_false, Option.map_eq_some'] at h
      obtain ⟨m', hm', rfl⟩ := h
      obtain ⟨h1, h2⟩ := ih hm'
      refine ⟨?_, ?_⟩
      · simp only [List.take_succ_cons, List.mem_cons, not_or]
        exact ⟨fun hc => hb hc.symm, h1⟩
      · simp only [List.take_succ_cons, List.drop_succ_cons, List.cons_append]
        exact congrArg (b :: ·) h2

theorem Count_le_length (s : List Nat) (c : Nat) : Count s c ≤ s.length := by
  induction s with
  | nil => simp [Count]
  | cons b rest ih =>
    unfold Count
    by_cases hb : b = c <;> simp [hb] <;> omega

theorem Count_eq_zero {s : List Nat} {c : Nat} (h : Count s c = 0) : c ∉ s := by
  induction s with
  | nil => simp
  | cons b rest ih =>
    unfold Count at h
    by_cases hb : b = c
    · simp [hb] at h
    · simp only [hb, if_false, Nat.zero_add] at h
      simp only [List.mem_cons, not_or]
      exact ⟨fun hc => hb hc.symm, ih h⟩

theorem Count_append_of_not_mem {p : List Nat} {c : Nat} (h : c ∉ p) (t : List Nat) :
    Count (p ++ t) c = Count t c := by
  induction p with
  | nil => rfl
  | cons b rest ih =>
    simp only [List.mem_cons, not_or] at h
    have hb : ¬ b = c := fun e => h.1 e.symm
    simp only [List.cons_append, Count, hb, if_false, Nat.zero_add]
    exact ih h.2

theorem Count_drop_Index {s : List Nat} {c m : Nat} (h : Index s c = some m) :
    Count s c = Count (s.drop (m + 1)) c + 1 := by
  obtain ⟨h1, h2⟩ := Index_eq_some h
  conv_lhs => rw [h2]
  rw [Count_append_of_not_mem h1]
  simp [Count]
  omega

/-- With at least `Count s c` iterations allowed, the loop of `genSplit` ends
on the part of `s` after its last `c`. -/
theorem genSplitLoop_last (c : Nat) (k : Nat) (s : List Nat) (hk : Count s c ≤ k) :
    ∃ front r, genSplitLoop c k s = front ++ [r] ∧ c ∉ r ∧ (c ∉ s → r = s)
      ∧ (c ∈ s → ∃ pre, s = pre ++ c :: r) := by
  induction k generalizing s with
  | zero =>
    have h0 : c ∉ s := Count_eq_zero (Nat.le_zero.mp hk)
    exact ⟨[], s, by simp [genSplitLoop], h0, fun _ => rfl, fun hc => absurd hc h0⟩
  | succ k ih =>
    cases hi : Index s c with
    | none =>
      have h0 : c ∉ s := Index_eq_none hi
      exact ⟨[], s, by simp [genSplitLoop, hi], h0, fun _ => rfl, fun hc => absurd hc h0⟩
    | some m =>
      obtain ⟨_, h2⟩ := Index_eq_some hi
      have hcount := Count_drop_Index hi
      obtain ⟨front, r, hr, hnr, hno, hyes⟩ := ih (s.drop (m + 1)) (by omega)
      refine ⟨s.take m :: front, r, by simp [genSplitLoop, hi, hr], hnr, ?_, ?_⟩
      · intro hns
        exact absurd (by rw [h2]; simp) hns
      · intro _
        by_cases hd : c ∈ s.drop (m + 1)
        · obtain ⟨pre, hpre⟩ := hyes hd
          refine ⟨s.take m ++ c :: pre, ?_⟩
          conv_lhs => rw [h2, hpre]
          simp
        · refine ⟨s.take m, ?_⟩
          rw [hno hd]
          exact h2

/-- The model `Split` never returns an empty slice, and its last piece is the part of
`s` after the last separator. -/
theorem Split_last (s : List Nat) (c : Nat) :
    ∃ front r, Split s c = front ++ [r] ∧ c ∉ r ∧ (c ∉ s → r = s)
      ∧ (c ∈ s → ∃ pre, s = pre ++ c :: r) := by
  unfold Split
  apply genSplitLoop_last
  have := Count_le_length s c
  split <;> omega

/-! ## The probe's queries -/

/-- C1: for every identity string `s` the OS query returns, `GetUsername`
returns without panic and with a nil error the last piece of
`strings.Split(s, "\\")`: it holds no backslash, it is `s` itself when `s` has
no backslash, and otherwise `s` is some prefix, a backslash, and the result.
The index `len(arr)-1` is in range. `HOST\alice` and `alice` both give
`alice`; the empty string gives the empty string. -/
theorem GetUsername_last_segment :
    (∀ s : List Nat, ∃ r, GetUsername (.ok s) = some (r, none)
        ∧ backslash ∉ r
        ∧ (backslash ∉ s → r = s)
        ∧ (backslash ∈ s → ∃ pre, s = pre ++ backslash :: r)
        ∧ (Split s backslash).length - 1 < (Split s backslash).length)
    ∧ GetUsername (.ok (str "HOST\\alice")) = some (str "alice", none)
    ∧ GetUsername (.ok (str "alice")) = some (str "alice", none)
    ∧ GetUsername (.ok (str "")) = some (str "", none) := by
  refine ⟨?_, by decide, by decide, by decide⟩
  intro s
  obtain ⟨front, r, hsplit, hnr, hno, hyes⟩ := Split_last s backslash
  refine ⟨r, ?_, hnr, hno, hyes, ?_⟩
  · simp [GetUsername, hsplit]
  · rw [hsplit]
    simp

/-- C2: `IsHighPriv` returns true exactly when the token opens, the elevation
query succeeds, the returned length is 4 and the elevation flag is non-zero;
so it returns false whenever opening the token fails and whenever the query
fails. -/
theorem IsHighPriv_true_iff (openToken : Except GoError Nat)
    (tokenInfo : Nat → TokenInformation) (handles : Finset Nat) :
    ((IsHighPriv openToken tokenInfo handles).1 = true ↔
        ∃ token, openToken = .ok token ∧ (tokenInfo token).err = none
          ∧ (tokenInfo token).outLen = 4 ∧ (tokenInfo token).isElevated ≠ 0)
    ∧ (∀ err, openToken = .error err → (IsHighPriv openToken tokenInfo handles).1 = false)
    ∧ (∀ token err, openToken = .ok token → (tokenInfo token).err = some err →
        (IsHighPriv openToken tokenInfo handles).1 = false) := by
  refine ⟨?_, ?_, ?_⟩
  · cases openToken with
    | error e => simp [IsHighPriv, OpenCurrentProcessToken]
    | ok token =>
      cases herr : (tokenInfo token).err with
      | some e => simp [IsHighPriv, OpenCurrentProcessToken, herr]
      | none =>
        simp [IsHighPriv, OpenCurrentProcessToken, herr, toUint32, sizeofIsElevated]
  · rintro err rfl
    simp [IsHighPriv, OpenCurrentProcessToken]
  · rintro token err rfl herr
    simp [IsHighPriv, OpenCurrentProcessToken, herr]

/-- C3: when the entry point resolves, `GetCodePageANSI` and `GetCodePageOEM`
return the bytes `[0xE9, 0xFD]`, the little-endian 16-bit encoding of 65001,
with a nil error, whatever `GetACP` / `GetOEMCP` report; when it does not
resolve they return a nil slice and a non-nil error. -/
theorem GetCodePage_hard_coded_utf8 (acp oemcp ansiCodePage : Nat) (notFound : GoError) :
    GetCodePageANSI none acp ansiCodePage = some ((some [0xE9, 0xFD], none), acp % 2 ^ 32)
    ∧ GetCodePageOEM none oemcp = some (some [0xE9, 0xFD], none)
    ∧ [0xE9, 0xFD] = [65001 % 256, 65001 / 256]
    ∧ (∃ err, GetCodePageANSI (some notFound) acp ansiCodePage
        = some ((none, some err), ansiCodePage))
    ∧ (∃ err, GetCodePageOEM (some notFound) oemcp = some (none, some err)) := by
  refine ⟨?_, ?_, by decide, ⟨_, rfl⟩, ⟨_, rfl⟩⟩
  · simp only [GetCodePageANSI, toUint32]
    have h : ((acp : Int) % 2 ^ 32).toNat = acp % 2 ^ 32 := by omega
    rw [h]
    rfl
  · rfl

/-- C4: for every process id and every outcome of the OS calls `IsPidX64`
returns a nil error, and when the process cannot be opened the boolean is
`IsProcessX64()`. -/
theorem IsPidX64_never_fails (goarch : String)
    (openProcess : Nat → Bool → Nat → Except GoError Nat)
    (isWow64Process : Nat → Bool × Option GoError) (pid : Nat) (handles : Finset Nat) :
    (IsPidX64 goarch openProcess isWow64Process pid handles).1.2 = none
    ∧ (∀ err, openProcess 0x1000 false pid = .error err →
        (IsPidX64 goarch openProcess isWow64Process pid handles).1
          = (IsProcessX64 goarch, none)) := by
  refine ⟨?_, ?_⟩
  · cases h : openProcess 0x1000 false pid <;> simp [IsPidX64, OpenProcess, h]
  · intro err h
    simp [IsPidX64, OpenProcess, h]

/-- C5: when the process opens, `IsPidX64` returns the flag `IsWow64Process`
stored, with a nil error. With that flag set exactly for a 32-bit process on a
64-bit OS, and no 64-bit process on a 32-bit OS, the boolean returned is the
negation of "the process's bitness equals the native bitness": false for a
native process, true for a 32-bit process under WOW64. -/
theorem IsPidX64_opened_returns_wow64_flag (goarch : String)
    (openProcess : Nat → Bool → Nat → Except GoError Nat)
    (isWow64Process : Nat → Bool × Option GoError) (pid : Nat) (handles : Finset Nat)
    (hProcess : Nat) (osIs64 procIs64 : Bool)
    (hopen : openProcess 0x1000 false pid = .ok hProcess)
    (hflag : (isWow64Process hProcess).1 = wow64Flag osIs64 procIs64)
    (hfeasible : procIs64 = true → osIs64 = true) :
    (IsPidX64 goarch openProcess isWow64Process pid handles).1
        = ((isWow64Process hProcess).1, none)
    ∧ (IsPidX64 goarch openProcess isWow64Process pid handles).1.1
        = !(procIs64 == osIs64) := by
  refine ⟨by simp [IsPidX64, OpenProcess, hopen], ?_⟩
  simp only [IsPidX64, OpenProcess, hopen, hflag, wow64Flag]
  cases osIs64 <;> cases procIs64 <;> simp_all

/-- C5 at a concrete process: a native 64-bit process on a 64-bit OS that opens
(handle 4). The claim of C5 gives true, `IsPidX64` returns false. -/
theorem IsPidX64_native_process_false :
    wow64Flag true true = false
    ∧ (IsPidX64 "amd64" (fun _ _ _ => .ok 4) (fun _ => (wow64Flag true true, none)) 1234 ∅).1
        = (false, none)
    ∧ (IsPidX64 "amd64" (fun _ _ _ => .ok 4) (fun _ => (wow64Flag true true, none)) 1234 ∅).1.1
        = !(true == true) :=
  ⟨rfl,
    by decide,
    (IsPidX64_opened_returns_wow64_flag "amd64" (fun _ _ _ => .ok 4)
      (fun _ => (wow64Flag true true, none)) 1234 ∅ 4 true true rfl rfl (fun _ => rfl)).2⟩

/-- C6: when `GetNativeSystemInfo` resolves, `IsOSX64` returns `(true, nil)`
for every architecture other than IA64 (6), the 32-bit x86 value
`ProcessorArchitectureIntel` (0) included, and `(false, nil)` for IA64 only. -/
theorem IsOSX64_true_unless_IA64 :
    IsOSX64 none ProcessorArchitectureAMD64 = (true, none)
    ∧ IsOSX64 none ProcessorArchitectureIntel = (true, none)
    ∧ IsOSX64 none ProcessorArchitectureIA64 = (false, none)
    ∧ ∀ arch, IsOSX64 none arch = (decide (arch ≠ ProcessorArchitectureIA64), none) := by
  refine ⟨by decide, by decide, by decide, ?_⟩
  intro arch
  by_cases h : arch = ProcessorArchitectureIA64
  · subst h
    decide
  · simp [IsOSX64, h]

/-- C7, as the code has it: for every version word `v` the query returns
without error, `GetOSVersion` returns, with a nil error, the decimal of
`v mod 256`, a dot, the decimal of `(v / 256) mod 256`, a dot, the decimal of
`v / 65536`, and a newline; when the query fails it returns the empty string
and the error. Windows 10 build 19045 gives `10.0.19045` followed by a
newline. -/
theorem GetOSVersion_format (v : Nat) (err : GoError) :
    GetOSVersion (v, none)
        = (fmtD (v % 256) ++ str "." ++ fmtD (v / 256 % 256) ++ str "." ++ fmtD (v / 65536)
            ++ str "\n", none)
    ∧ GetOSVersion (v, some err) = ([], some err)
    ∧ GetOSVersion (19045 * 65536 + 10, none) = (str "10.0.19045\n", none) := by
  refine ⟨?_, rfl, by decide⟩
  simp [GetOSVersion, toByte, Nat.shiftRight_eq_div_pow]

/-- C7 as stated fails: for the version word of Windows 10 build 19045 the
query succeeds and the text returned is not `10.0.19045` (it ends in a
newline). -/
theorem GetOSVersion_not_bare_version :
    ¬ (GetOSVersion (19045 * 65536 + 10, none)
        = (fmtD ((19045 * 65536 + 10) % 256) ++ str "."
            ++ fmtD ((19045 * 65536 + 10) / 256 % 256) ++ str "."
            ++ fmtD ((19045 * 65536 + 10) / 65536), none))
    ∧ GetOSVersion (19045 * 65536 + 10, none) ≠ (str "10.0.19045", none) := by
  decide

/-- C9: `GetProcessSessionId` calls the OS lookup on `pid mod 2^32`; it
returns 0 when the lookup fails, whatever the lookup left in `sessionId`, and
the session id the lookup stored when it succeeds. -/
theorem GetProcessSessionId_zero_on_failure
    (processIdToSessionId : Nat → Nat × Option GoError) (pid : Int) :
    (∀ stored err, processIdToSessionId (pid % 2 ^ 32).toNat = (stored, some err) →
        GetProcessSessionId processIdToSessionId pid = 0)
    ∧ (∀ sessionId, processIdToSessionId (pid % 2 ^ 32).toNat = (sessionId, none) →
        GetProcessSessionId processIdToSessionId pid = sessionId)
    ∧ GetProcessSessionId
        (fun p => if p = 4294967295 then (7, some (.errno 87)) else (1, none)) (-1) = 0
    ∧ GetProcessSessionId
        (fun p => if p = 4294967295 then (7, some (.errno 87)) else (1, none)) 516 = 1 := by
  refine ⟨?_, ?_, by decide, by decide⟩
  · intro stored err h
    unfold GetProcessSessionId toUint32
    rw [h]
    rfl
  · intro sessionId h
    unfold GetProcessSessionId toUint32
    rw [h]
    rfl

/-! ## `bytes.Trim` -/

theorem dropWhile_append_keeps (p : Nat → Bool) (l : List Nat) (b a : Nat) (hb : p b = false) :
    ∃ x, (l ++ [b, a]).dropWhile p = x ++ [b, a] := by
  induction l with
  | nil => exact ⟨[], by simp [List.dropWhile, hb]⟩
  | cons h l ih =>
    cases hp : p h with
    | true =>
      obtain ⟨x, hx⟩ := ih
      exact ⟨x, by simp [List.dropWhile, hp, hx]⟩
    | false => exact ⟨h :: l, by simp [List.dropWhile, hp]⟩

/-- Go `bytes.Trim` keeps the first two bytes of a slice when neither is in the
cutset. -/
theorem Trim_cons_cons (a b c : Nat) (ha : a ≠ c) (hb : b ≠ c) (t : List Nat) :
    ∃ t1, Trim (a :: b :: t) c = a :: b :: t1 := by
  obtain ⟨x, hx⟩ := dropWhile_append_keeps (fun v => decide (v = c)) t.reverse b a (by simp [hb])
  refine ⟨x.reverse, ?_⟩
  unfold Trim
  have hrev : (a :: b :: t).reverse = t.reverse ++ [b, a] := by simp
  rw [hrev, hx]
  simp [List.dropWhile, ha]

/-- In `demoLib` no block is both a public key, once trimmed, and a private
key. -/
theorem demoLib_keys_disjoint (der : List Nat) (pub : Option Nat)
    (h : demoLib.ParsePKIXPublicKey (Trim der 0) = .ok pub) :
    ∃ err, demoLib.ParsePKCS8PrivateKey der = .error err := by
  cases hpriv : demoLib.ParsePKCS8PrivateKey der with
  | error e => exact ⟨e, rfl⟩
  | ok sk =>
    exfalso
    simp only [demoLib] at hpriv h
    split at hpriv
    · rename_i k rest
      obtain ⟨t1, ht⟩ := Trim_cons_cons 0x30 0x02 0 (by decide) (by decide) (k :: rest)
      rw [ht] at h
      split at h
      · rename_i heq
        simp at heq
      · simp at h
    · simp at hpriv

/-! ## `RsaEncrypt` and `RsaDecrypt` -/

/-- C8: `RsaDecrypt` parses the block of `config.RsaPublicKey`, the block
`RsaEncrypt` parses, as a PKCS#8 private key. With parsers under which a block
that (trimmed) is a PKIX public key is not a PKCS#8 private key, whenever
`RsaEncrypt` returns a ciphertext without error, `RsaDecrypt` on that
ciphertext returns an error instead of the payload. -/
theorem RsaDecrypt_fails_after_RsaEncrypt {PublicKey PrivateKey : Type}
    (lib : CryptoLib PublicKey PrivateKey)
    (rsaPublicKey random origData c random2 : List Nat)
    (hlib : ∀ der pub, lib.ParsePKIXPublicKey (Trim der 0) = .ok pub →
      ∃ err, lib.ParsePKCS8PrivateKey der = .error err)
    (henc : RsaEncrypt lib rsaPublicKey random origData = some (.ok c)) :
    (∃ err, RsaDecrypt lib rsaPublicKey random2 c = some (.error err))
    ∧ RsaDecrypt lib rsaPublicKey random2 c ≠ some (.ok origData) := by
  have hmain : ∃ err, RsaDecrypt lib rsaPublicKey random2 c = some (.error err) := by
    unfold RsaEncrypt at henc
    unfold RsaDecrypt
    cases hpem : lib.pemDecode rsaPublicKey with
    | none => exact ⟨_, rfl⟩
    | some blockBytes =>
      rw [hpem] at henc
      simp only at henc
      cases hpub : lib.ParsePKIXPublicKey (Trim blockBytes 0) with
      | error e =>
        rw [hpub] at henc
        simp at henc
      | ok pub =>
        obtain ⟨err, hpriv⟩ := hlib blockBytes pub hpub
        simp only [hpriv]
        exact ⟨err, rfl⟩
  refine ⟨hmain, ?_⟩
  obtain ⟨err, herr⟩ := hmain
  rw [herr]
  simp

/-- C8 at a concrete key: in `demoLib`, with the public key block `30 30 07`, `RsaEncrypt` of the
payload `hi` succeeds and `RsaDecrypt` of the ciphertext returns an error. -/
theorem RsaDecrypt_fails_after_RsaEncrypt_demo :
    (∀ der pub, demoLib.ParsePKIXPublicKey (Trim der 0) = .ok pub →
      ∃ err, demoLib.ParsePKCS8PrivateKey der = .error err)
    ∧ RsaEncrypt demoLib [0x30, 0x30, 7] [] (str "hi") = some (.ok [111, 112])
    ∧ RsaDecrypt demoLib [0x30, 0x30, 7] [] [111, 112]
        = some (.error (.text "x509: failed to parse private key"))
    ∧ RsaDecrypt demoLib [0x30, 0x30, 7] [] [111, 112] ≠ some (.ok (str "hi")) :=
  ⟨demoLib_keys_disjoint, rfl, rfl,
    (RsaDecrypt_fails_after_RsaEncrypt demoLib [0x30, 0x30, 7] [] (str "hi") [111, 112] []
      demoLib_keys_disjoint rfl).2⟩

/-! ## Open handles -/

/-- C10: with `0` not an open handle and `h` the fresh handle the OS hands
out, the set of open handles after `IsHighPriv` is the set before, whether the
token opens or not, and so it is after `IsPidX64` when the process does not
open; when the process opens, the set after `IsPidX64` is the set before with
`h` added: the process handle is still open. -/
theorem open_handles_after_query (handles : Finset Nat) (h : Nat)
    (hzero : 0 ∉ handles) (hfresh : h ∉ handles) :
    (∀ tokenInfo, (IsHighPriv (.ok h) tokenInfo handles).2 = handles)
    ∧ (∀ err tokenInfo, (IsHighPriv (.error err) tokenInfo handles).2 = handles)
    ∧ (∀ goarch openProcess isWow64Process pid err,
        openProcess 0x1000 false pid = .error err →
        (IsPidX64 goarch openProcess isWow64Process pid handles).2 = handles)
    ∧ (∀ goarch openProcess isWow64Process pid,
        openProcess 0x1000 false pid = .ok h →
        (IsPidX64 goarch openProcess isWow64Process pid handles).2 = insert h handles
        ∧ (IsPidX64 goarch openProcess isWow64Process pid handles).2 ≠ handles) := by
  refine ⟨?_, ?_, ?_, ?_⟩
  · intro tokenInfo
    have hclose : (CloseHandle h (insert h handles)).2 = handles := by
      simp [CloseHandle, Finset.erase_insert hfresh]
    simp only [IsHighPriv, OpenCurrentProcessToken]
    split <;> [skip; split] <;> exact hclose
  · intro err tokenInfo
    simp [IsHighPriv, OpenCurrentProcessToken, CloseHandle, hzero]
  · intro goarch openProcess isWow64Process pid err hopen
    simp [IsPidX64, OpenProcess, hopen]
  · intro goarch openProcess isWow64Process pid hopen
    have hres : (IsPidX64 goarch openProcess isWow64Process pid handles).2
        = insert h handles := by
      simp [IsPidX64, OpenProcess, hopen]
    refine ⟨hres, ?_⟩
    rw [hres]
    intro heq
    exact hfresh (heq ▸ Finset.mem_insert_self h handles)

/-- C10 at a concrete state: with no handle open and the OS handing out handle 4 for process 1234,
handle 4 is still open after `IsPidX64` returns. -/
theorem IsPidX64_leaves_handle_open :
    0 ∉ (∅ : Finset Nat) ∧ 4 ∉ (∅ : Finset Nat)
    ∧ (IsPidX64 "amd64" (fun _ _ _ => .ok 4) (fun _ => (false, none)) 1234 ∅).2 = {4}
    ∧ (IsPidX64 "amd64" (fun _ _ _ => .ok 4) (fun _ => (false, none)) 1234 ∅).2 ≠ ∅ :=
  ⟨by decide, by decide, by decide,
    ((open_handles_after_query ∅ 4 (by decide) (by decide)).2.2.2 "amd64"
      (fun _ _ _ => .ok 4) (fun _ => (false, none)) 1234 rfl).2⟩

end Geacon
